import Mathlib

/-!
Shallow embedding of the multicast repository (multicast.c and
multicast6.c).  The parameter record built by each main, the receiver and
sender threads modelled as traces of socket calls over an explicit
environment of syscall results, and the payload formatting of the send
loops are translated from the two source files.  Library routines used by
the sources (htons, atoi, inet_addr, inet_pton, isprint) are modelled from
their C library contracts on the input forms the program meets.
-/

/-- Sixteen-bit byte swap: the model of htons from the C library applied
to a value already reduced to sixteen bits. -/
def htons (x : Nat) : Nat := x % 256 * 256 + x / 256 % 256

/-- Sixteen-bit byte swap: the model of ntohs, the inverse of htons on
sixteen-bit values. -/
def ntohs (x : Nat) : Nat := x % 256 * 256 + x / 256 % 256

/-- The C integer conversion from int to uint16_t, applied implicitly when
the int returned by atoi is passed to htons: reduction modulo 2 ^ 16. -/
def u16OfInt (n : Int) : Nat := (n % 65536).toNat

/-- Decimal digit test on characters, the model of isdigit in the C
locale. -/
def isDigitChar (c : Char) : Bool := 48 ≤ c.toNat && c.toNat ≤ 57

/-- White space test on characters, the model of isspace in the C
locale. -/
def isSpaceChar (c : Char) : Bool := c.toNat = 32 || (9 ≤ c.toNat && c.toNat ≤ 13)

/-- Accumulate leading decimal digits, stopping at the first non-digit:
the digit-consuming loop of atoi. -/
def digitsVal : List Char → Nat → Nat
  | c :: cs, acc => if isDigitChar c then digitsVal cs (acc * 10 + (c.toNat - 48)) else acc
  | [], acc => acc

/-- Model of the C library atoi: skip leading white space, read an
optional sign, then leading decimal digits; 0 when no digit is present.
The value is kept exact (overflow of the C int is undefined behaviour and
outside the model). -/
def atoi (s : String) : Int :=
  match s.data.dropWhile isSpaceChar with
  | '-' :: rest => - (digitsVal rest 0 : Int)
  | '+' :: rest => (digitsVal rest 0 : Int)
  | rest => (digitsVal rest 0 : Int)

/-- Split a character list at every dot, the numbers-and-dots scanning of
inet_addr. -/
def splitDots : List Char → List (List Char)
  | [] => [[]]
  | c :: cs =>
    if c = '.' then [] :: splitDots cs
    else
      match splitDots cs with
      | g :: gs => (c :: g) :: gs
      | [] => [[c]]

/-- Value of one all-decimal part of a numbers-and-dots address, none when
the part is empty or holds a non-digit. -/
def decPart (cs : List Char) : Option Nat :=
  if cs = [] then none
  else if cs.all isDigitChar then some (digitsVal cs 0) else none

/-- Model of the C library inet_addr on numbers-and-dots strings with
decimal parts (the legacy octal and hexadecimal part forms do not occur
among the inputs considered).  The result is the 32-bit group address
written into s_addr, as the byte sequence read most significant byte
first; the two constants the program compares against, INADDR_ANY = 0 and
the failure value INADDR_NONE = 2 ^ 32 - 1, read the same in either byte
order. -/
def inet_addr (s : String) : Nat :=
  match (splitDots s.data).map decPart with
  | [some a] => if a < 4294967296 then a else 4294967295
  | [some a, some b] =>
    if a ≤ 255 ∧ b < 16777216 then a * 16777216 + b else 4294967295
  | [some a, some b, some c] =>
    if a ≤ 255 ∧ b ≤ 255 ∧ c < 65536 then a * 16777216 + b * 65536 + c else 4294967295
  | [some a, some b, some c, some d] =>
    if a ≤ 255 ∧ b ≤ 255 ∧ c ≤ 255 ∧ d ≤ 255 then a * 16777216 + b * 65536 + c * 256 + d
    else 4294967295
  | _ => 4294967295

/-- Hexadecimal digit value, the scanner of inet_pton for AF_INET6. -/
def hexVal (c : Char) : Option Nat :=
  if 48 ≤ c.toNat ∧ c.toNat ≤ 57 then some (c.toNat - 48)
  else if 97 ≤ c.toNat ∧ c.toNat ≤ 102 then some (c.toNat - 87)
  else if 65 ≤ c.toNat ∧ c.toNat ≤ 70 then some (c.toNat - 55)
  else none

/-- One sixteen-bit group of an IPv6 literal: one to four hex digits. -/
def hexGroup (cs : List Char) : Option Nat :=
  if cs = [] ∨ 4 < cs.length then none
  else
    cs.foldl (fun acc c =>
      match acc, hexVal c with
      | some a, some v => some (a * 16 + v)
      | _, _ => none) (some 0)

/-- Split a character list at every single colon. -/
def splitColons : List Char → List (List Char)
  | [] => [[]]
  | c :: cs =>
    if c = ':' then [] :: splitColons cs
    else
      match splitColons cs with
      | g :: gs => (c :: g) :: gs
      | [] => [[c]]

/-- Locate the first double colon, returning the text before and after
it, or none when no double colon occurs. -/
def splitDColon : List Char → Option (List Char × List Char)
  | ':' :: ':' :: rest => some ([], rest)
  | c :: rest =>
    match splitDColon rest with
    | some (l, r) => some (c :: l, r)
    | none => none
  | [] => none

/-- True when a double colon occurs in the text. -/
def hasDColon : List Char → Bool
  | ':' :: ':' :: _ => true
  | _ :: rest => hasDColon rest
  | [] => false

/-- Combine sixteen-bit groups, most significant first, into the 128-bit
group address value. -/
def combine6 (gs : List Nat) : Nat := gs.foldl (fun acc g => acc * 65536 + g) 0

/-- Values of a colon-separated group list, none when any group is
malformed. -/
def groupsVal (gs : List (List Char)) : Option (List Nat) :=
  gs.foldr (fun g acc =>
    match hexGroup g, acc with
    | some v, some vs => some (v :: vs)
    | _, _ => none) (some [])

/-- Model of the C library inet_pton for AF_INET6 on the hexadecimal
group forms with at most one double-colon compression (the embedded
dotted-quad tail form does not occur among the inputs considered).
Returns none on malformed input, in which case the caller's memory is
left unchanged. -/
def inet_pton6 (s : String) : Option Nat :=
  match splitDColon s.data with
  | none =>
    match groupsVal (splitColons s.data) with
    | some gs => if gs.length = 8 then some (combine6 gs) else none
    | none => none
  | some (l, r) =>
    if hasDColon r then none
    else
      let lg := if l = [] then some [] else groupsVal (splitColons l)
      let rg := if r = [] then some [] else groupsVal (splitColons r)
      match lg, rg with
      | some a, some b =>
        if a.length + b.length ≤ 7 then
          some (combine6 (a ++ List.replicate (8 - a.length - b.length) 0 ++ b))
        else none
      | _, _ => none

/-- Fuel-driven most-significant-first decimal digit expansion, the
digits produced by the %d conversions of snprintf; the fuel argument only
makes the recursion structural and is always sufficient where used. -/
def decDigitsAux : Nat → Nat → List Nat
  | 0, _ => []
  | fuel + 1, n => if n < 10 then [n] else decDigitsAux fuel (n / 10) ++ [n % 10]

/-- Decimal digits of n, most significant first. -/
def decDigits (n : Nat) : List Nat := decDigitsAux (n + 1) n

/-- Numeric value of a most-significant-first digit list. -/
def ofDigits (ds : List Nat) : Nat := ds.foldl (fun a d => 10 * a + d) 0

/-- Model of the %06d conversion of snprintf: the decimal digits of the
value, left padded with zeros to a minimum field width of six.  The width
is a minimum only; a value of seven or more digits widens the field. -/
def fmt06 (n : Nat) : List Nat :=
  List.replicate (6 - (decDigits n).length) 0 ++ decDigits n

/-- Printable byte test, the model of isprint in the C locale (0x20 to
0x7E).  The receive buffers hold signed char, so bytes 0x80 and above
reach isprint as negative values and are not printable. -/
def isprintB (b : Nat) : Bool := 32 ≤ b && b ≤ 126

/-- The receive-loop payload rewrite of both programs: every byte that is
not printable is replaced with the period byte 46, in place, byte for
byte. -/
def sanitize (l : List Nat) : List Nat :=
  l.map (fun b => if isprintB b then b else 46)

/-- Thread outcome in the model: still inside its infinite loop after the
modelled events, or terminated through exit(EXIT_FAILURE). -/
inductive Status
  | running
  | exitFailure
deriving DecidableEq

/-- One datagram offered to recvfrom: sender address and port (the port
in network byte order, as on the wire) and the payload bytes. -/
structure Datagram where
  src : Nat
  sport : Nat
  payload : List Nat
deriving DecidableEq

/-- Event a occurs strictly before event b in the trace tr. -/
def precedes {α : Type} (tr : List α) (a b : α) : Prop :=
  ∃ l1 l2, tr = l1 ++ l2 ∧ a ∈ l1 ∧ b ∈ l2

/-- Result of a run of main: usage error, or the thread or threads
started with the final parameter record (in both mode the same record is
handed to the two threads). -/
inductive Outcome (π : Type)
  | usage
  | startRecv (p : π)
  | startSend (p : π)
  | startBoth (p : π)
deriving DecidableEq

namespace Multicast

/-- The struct param of multicast.c.  Addresses are the 32-bit values
stored in s_addr; port is stored with htons applied, as in the source;
ssm, loop and bidir are the C int fields. -/
structure Param where
  mip : Nat
  port : Nat
  sip : Nat
  ifip : Nat
  ssm : Nat
  loop : Nat
  bidir : Nat
deriving DecidableEq

/-- Socket calls made by the two threads of multicast.c, carrying the
arguments the claims concern.  An event records that the call was made;
whether it succeeded is decided by the environment. -/
inductive Event
  | evSocket
  | evSetReuse
  | evBind (addr : Nat) (bport : Nat)
  | evJoinASM (group iface : Nat)
  | evJoinSSM (group iface src : Nat)
  | evSetMcastIf (iface : Nat)
  | evSetTTL (ttl : Nat)
  | evSetLoop (v : Nat)
  | evSend (dst : Nat) (dport : Nat) (msg : List Nat)
  | evLogRecvError
  | evRecvObs (src : Nat) (sport : Nat) (payload : List Nat) (len : Nat)
deriving DecidableEq

/-- Environment of the receiver thread: the result of each fallible
setup call, and the sequence of recvfrom results, none standing for a
failed read. -/
structure RecvEnv where
  socketOk : Bool
  reuseOk : Bool
  bindOk : Bool
  joinOk : Bool
  reads : List (Option Datagram)
deriving DecidableEq

/-- Trace entry of one recvfrom result, multicast.c lines 143 to 165: a
failed read is reported with perror and the loop continues; a datagram is
reported with its sender, its sanitized payload and its length, the
payload truncated to the 1472-byte buffer. -/
def readEvent : Option Datagram → Event
  | none => Event.evLogRecvError
  | some d =>
    Event.evRecvObs d.src (ntohs d.sport) (sanitize (d.payload.take 1472))
      (min d.payload.length 1472)

/-- recv_thread of multicast.c, lines 77 to 170, as a trace of socket
calls.  The socket is bound to INADDR_ANY (address 0) and the configured
port; exactly one of the ASM and SSM joins is issued according to the ssm
field; every failed setup call exits the process; the read loop never
exits. -/
def recv_thread (p : Param) (env : RecvEnv) : List Event × Status :=
  if !env.socketOk then ([Event.evSocket], Status.exitFailure)
  else if !env.reuseOk then ([Event.evSocket, Event.evSetReuse], Status.exitFailure)
  else if !env.bindOk then
    ([Event.evSocket, Event.evSetReuse, Event.evBind 0 p.port], Status.exitFailure)
  else if p.ssm = 0 then
    if !env.joinOk then
      ([Event.evSocket, Event.evSetReuse, Event.evBind 0 p.port,
        Event.evJoinASM p.mip p.ifip], Status.exitFailure)
    else
      ([Event.evSocket, Event.evSetReuse, Event.evBind 0 p.port,
        Event.evJoinASM p.mip p.ifip] ++ List.map readEvent env.reads, Status.running)
  else if p.ssm = 1 then
    if !env.joinOk then
      ([Event.evSocket, Event.evSetReuse, Event.evBind 0 p.port,
        Event.evJoinSSM p.mip p.ifip p.sip], Status.exitFailure)
    else
      ([Event.evSocket, Event.evSetReuse, Event.evBind 0 p.port,
        Event.evJoinSSM p.mip p.ifip p.sip] ++ List.map readEvent env.reads, Status.running)
  else
    ([Event.evSocket, Event.evSetReuse, Event.evBind 0 p.port]
      ++ List.map readEvent env.reads, Status.running)

/-- Setup calls of recv_thread when every call succeeds, summarising the
trace up to the read loop. -/
def recvSetupEvents (p : Param) : List Event :=
  [Event.evSocket, Event.evSetReuse, Event.evBind 0 p.port] ++
    (if p.ssm = 0 then [Event.evJoinASM p.mip p.ifip]
     else if p.ssm = 1 then [Event.evJoinSSM p.mip p.ifip p.sip]
     else [])

/-- The fixed pattern ".....*" of the sender of multicast.c as bytes. -/
def fixstr : List Nat := [46, 46, 46, 46, 46, 42]

/-- The value printed by the %06d conversion at iteration i of the send
loop of multicast.c: the loop counter itself, starting at 0.  The C int
counter is modelled as unbounded, overflow being undefined behaviour far
beyond any realistic run. -/
def seqVal (i : Nat) : Nat := i

/-- The sequence suffix rendered into the payload at iteration i: the
%06d conversion of the counter, as ASCII digit bytes. -/
def seqField (i : Nat) : List Nat := List.map (fun d => d + 48) (fmt06 (seqVal i))

/-- The payload assembled by snprintf at iteration i of the send loop of
multicast.c, line 252: the tail of the pattern from offset i mod 6, the
first i mod 6 pattern bytes, a slash, the six time bytes, a slash, and
the %06d rendering of the counter. -/
def message (i : Nat) (timestr : List Nat) : List Nat :=
  fixstr.drop (i % 6) ++ fixstr.take (i % 6) ++ [47] ++ timestr ++ [47] ++ seqField i

/-- Environment of the sender thread: the result of each fallible setup
call and, for each loop iteration, the time bytes formatted by strftime
and the result of the sendto call. -/
structure SendEnv where
  socketOk : Bool
  reuseOk : Bool
  bindOk : Bool
  mcastIfOk : Bool
  ttlOk : Bool
  loopOk : Bool
  iters : List (List Nat × Bool)
deriving DecidableEq

/-- The send loop of multicast.c, lines 244 to 268: at iteration i the
payload is formatted and sent to the group address and port; a failed
sendto exits the process, otherwise the loop continues forever. -/
def sendLoop (p : Param) : Nat → List (List Nat × Bool) → List Event × Status
  | _, [] => ([], Status.running)
  | i, it :: rest =>
    if it.2 then
      let r := sendLoop p (i + 1) rest
      (Event.evSend p.mip p.port (message i it.1) :: r.1, r.2)
    else ([Event.evSend p.mip p.port (message i it.1)], Status.exitFailure)

/-- send_thread of multicast.c, lines 175 to 272, as a trace of socket
calls: bind to the interface address (INADDR_ANY when unspecified), with
SO_REUSEADDR and the fixed port added first in bidir mode; the egress
interface option only when an interface is specified; TTL 64 and the
loopback flag; then the send loop.  Every failed call exits the
process. -/
def send_thread (p : Param) (env : SendEnv) : List Event × Status :=
  if !env.socketOk then ([Event.evSocket], Status.exitFailure)
  else if p.bidir = 1 && !env.reuseOk then
    ([Event.evSocket, Event.evSetReuse], Status.exitFailure)
  else
    let afterReuse : List Event :=
      if p.bidir = 1 then [Event.evSocket, Event.evSetReuse] else [Event.evSocket]
    let bindPort : Nat := if p.bidir = 1 then p.port else 0
    if !env.bindOk then (afterReuse ++ [Event.evBind p.ifip bindPort], Status.exitFailure)
    else
      let afterBind := afterReuse ++ [Event.evBind p.ifip bindPort]
      if p.ifip ≠ 0 && !env.mcastIfOk then
        (afterBind ++ [Event.evSetMcastIf p.ifip], Status.exitFailure)
      else
        let afterIf := afterBind ++ (if p.ifip ≠ 0 then [Event.evSetMcastIf p.ifip] else [])
        if !env.ttlOk then (afterIf ++ [Event.evSetTTL 64], Status.exitFailure)
        else if !env.loopOk then
          (afterIf ++ [Event.evSetTTL 64, Event.evSetLoop p.loop], Status.exitFailure)
        else
          let pre := afterIf ++ [Event.evSetTTL 64, Event.evSetLoop p.loop]
          let r := sendLoop p 0 env.iters
          (pre ++ r.1, r.2)

/-- Parameter record built by main of multicast.c before the mode
dispatch, lines 288 to 309: the record is zeroed, sip and ifip default to
INADDR_ANY, the group and port come from argv[2] and argv[3], the
optional SSM source from argv[4] (a lone dash meaning unset) and the
local interface from argv[5].  The default SSM-enabled build is modelled,
NOSSM being undefined. -/
def parseParam (argv : List String) : Param :=
  let base : Param :=
    { mip := inet_addr (argv.getD 2 "")
      port := htons (u16OfInt (atoi (argv.getD 3 "")))
      sip := 0
      ifip := 0
      ssm := 0
      loop := 0
      bidir := 0 }
  let withSrc :=
    if 5 ≤ argv.length then
      if argv.getD 4 "" ≠ "-" then
        { base with ssm := 1, sip := inet_addr (argv.getD 4 "") }
      else base
    else base
  if 6 ≤ argv.length then { withSrc with ifip := inet_addr (argv.getD 5 "") } else withSrc

/-- main of multicast.c, lines 285 to 332: usage exit when fewer than
three arguments follow the program name or the mode is unknown; otherwise
the parsed parameters are handed to the thread selected by the mode, with
loop forced to 1 in send mode and bidir forced to 1 in both mode. -/
def main (argv : List String) : Outcome Param :=
  if argv.length < 4 then Outcome.usage
  else if argv.getD 1 "" = "recv" then Outcome.startRecv (parseParam argv)
  else if argv.getD 1 "" = "send" then Outcome.startSend { parseParam argv with loop := 1 }
  else if argv.getD 1 "" = "both" then Outcome.startBoth { parseParam argv with bidir := 1 }
  else Outcome.usage

end Multicast

namespace Multicast6

/-- The struct param of multicast6.c.  Addresses are 128-bit values read
most significant group first (in6addr_any is 0); port is stored with
htons applied, as in the source; ifidx is the interface index resolved by
if_nametoindex, 0 being the default; ssm, loop and bidir are the C int
fields. -/
structure Param where
  mip : Nat
  port : Nat
  sip : Nat
  ifidx : Nat
  ifname : String
  ssm : Nat
  loop : Nat
  bidir : Nat
deriving DecidableEq

/-- Socket calls made by the two threads of multicast6.c, carrying the
arguments the claims concern.  An event records that the call was made;
whether it succeeded is decided by the environment. -/
inductive Event
  | evSocket
  | evSetReuse
  | evBind (addr : Nat) (bport : Nat)
  | evJoinASM (group ifidx : Nat)
  | evBindDev (name : String)
  | evJoinSSM (group src ifidx : Nat)
  | evSetMcastIf (ifidx : Nat)
  | evSetHops (v : Nat)
  | evSetLoop (v : Nat)
  | evSend (dst : Nat) (dport : Nat) (msg : List Nat)
  | evLogRecvError
  | evRecvObs (src : Nat) (sport : Nat) (payload : List Nat) (len : Nat)
deriving DecidableEq

/-- Environment of the receiver thread of multicast6.c: the result of
each fallible setup call (bindDevOk for the SO_BINDTODEVICE call of the
SSM path) and the sequence of recvfrom results, none standing for a
failed read. -/
structure RecvEnv where
  socketOk : Bool
  reuseOk : Bool
  bindOk : Bool
  bindDevOk : Bool
  joinOk : Bool
  reads : List (Option Datagram)
deriving DecidableEq

/-- Trace entry of one recvfrom result, multicast6.c lines 174 to 198: a
failed read is reported with perror and the loop continues; a datagram is
reported with its sender, its sanitized payload and its length, the
payload truncated to the 1452-byte buffer. -/
def readEvent : Option Datagram → Event
  | none => Event.evLogRecvError
  | some d =>
    Event.evRecvObs d.src (ntohs d.sport) (sanitize (d.payload.take 1452))
      (min d.payload.length 1452)

/-- recv_thread of multicast6.c, lines 85 to 203, as a trace of socket
calls.  The socket is bound to in6addr_any (address 0) and the configured
port; the ASM path joins directly, the SSM path first binds the device to
the interface name and then issues the source join; every failed setup
call exits the process; the read loop never exits. -/
def recv_thread (p : Param) (env : RecvEnv) : List Event × Status :=
  if !env.socketOk then ([Event.evSocket], Status.exitFailure)
  else if !env.reuseOk then ([Event.evSocket, Event.evSetReuse], Status.exitFailure)
  else if !env.bindOk then
    ([Event.evSocket, Event.evSetReuse, Event.evBind 0 p.port], Status.exitFailure)
  else if p.ssm = 0 then
    if !env.joinOk then
      ([Event.evSocket, Event.evSetReuse, Event.evBind 0 p.port,
        Event.evJoinASM p.mip p.ifidx], Status.exitFailure)
    else
      ([Event.evSocket, Event.evSetReuse, Event.evBind 0 p.port,
        Event.evJoinASM p.mip p.ifidx] ++ List.map readEvent env.reads, Status.running)
  else if p.ssm = 1 then
    if !env.bindDevOk then
      ([Event.evSocket, Event.evSetReuse, Event.evBind 0 p.port,
        Event.evBindDev p.ifname], Status.exitFailure)
    else if !env.joinOk then
      ([Event.evSocket, Event.evSetReuse, Event.evBind 0 p.port,
        Event.evBindDev p.ifname, Event.evJoinSSM p.mip p.sip p.ifidx], Status.exitFailure)
    else
      ([Event.evSocket, Event.evSetReuse, Event.evBind 0 p.port,
        Event.evBindDev p.ifname, Event.evJoinSSM p.mip p.sip p.ifidx]
        ++ List.map readEvent env.reads, Status.running)
  else
    ([Event.evSocket, Event.evSetReuse, Event.evBind 0 p.port]
      ++ List.map readEvent env.reads, Status.running)

/-- Setup calls of recv_thread when every call succeeds, summarising the
trace up to the read loop. -/
def recvSetupEvents (p : Param) : List Event :=
  [Event.evSocket, Event.evSetReuse, Event.evBind 0 p.port] ++
    (if p.ssm = 0 then [Event.evJoinASM p.mip p.ifidx]
     else if p.ssm = 1 then [Event.evBindDev p.ifname, Event.evJoinSSM p.mip p.sip p.ifidx]
     else [])

/-- The pattern buffer of the sender of multicast6.c at iteration i: the
first byte is rewritten each iteration to the digit of (i / 6) mod 10,
the remaining five dots are never touched, so the buffer is a function of
i. -/
def fixstr (i : Nat) : List Nat := (48 + i / 6 % 10) :: [46, 46, 46, 46, 46]

/-- The value printed by the %06d conversion at iteration i of the send
loop of multicast6.c: i + 1, so the numbered suffix starts at 1.  The C
int counter is modelled as unbounded, overflow being undefined behaviour
far beyond any realistic run. -/
def seqVal (i : Nat) : Nat := i + 1

/-- The sequence suffix rendered into the payload at iteration i: the
%06d conversion of i + 1, as ASCII digit bytes. -/
def seqField (i : Nat) : List Nat := List.map (fun d => d + 48) (fmt06 (seqVal i))

/-- The payload assembled by snprintf at iteration i of the send loop of
multicast6.c, line 288: the tail of the pattern from offset 6 - i mod 6,
the first 6 - i mod 6 pattern bytes, a slash, the six time bytes, a
slash, and the %06d rendering of i + 1. -/
def message (i : Nat) (timestr : List Nat) : List Nat :=
  (fixstr i).drop (6 - i % 6) ++ (fixstr i).take (6 - i % 6) ++ [47] ++ timestr
    ++ [47] ++ seqField i

/-- Environment of the sender thread of multicast6.c: the result of each
fallible setup call and, for each loop iteration, the time bytes
formatted by strftime and the result of the sendto call. -/
structure SendEnv where
  socketOk : Bool
  reuseOk : Bool
  bindOk : Bool
  mcastIfOk : Bool
  hopsOk : Bool
  loopOk : Bool
  iters : List (List Nat × Bool)
deriving DecidableEq

/-- The send loop of multicast6.c, lines 278 to 308: at iteration i the
payload is formatted and sent to the group address and port; a failed
sendto exits the process, otherwise the loop continues forever. -/
def sendLoop (p : Param) : Nat → List (List Nat × Bool) → List Event × Status
  | _, [] => ([], Status.running)
  | i, it :: rest =>
    if it.2 then
      let r := sendLoop p (i + 1) rest
      (Event.evSend p.mip p.port (message i it.1) :: r.1, r.2)
    else ([Event.evSend p.mip p.port (message i it.1)], Status.exitFailure)

/-- send_thread of multicast6.c, lines 208 to 312, as a trace of socket
calls: the local bind uses the sip field as its address (multicast6.c
line 227), with SO_REUSEADDR and the fixed port added first in bidir
mode; the egress interface option only when an interface index is
specified; hop limit 64 and the loopback flag; then the send loop.  Every
failed call exits the process. -/
def send_thread (p : Param) (env : SendEnv) : List Event × Status :=
  if !env.socketOk then ([Event.evSocket], Status.exitFailure)
  else if p.bidir = 1 && !env.reuseOk then
    ([Event.evSocket, Event.evSetReuse], Status.exitFailure)
  else
    let afterReuse : List Event :=
      if p.bidir = 1 then [Event.evSocket, Event.evSetReuse] else [Event.evSocket]
    let bindPort : Nat := if p.bidir = 1 then p.port else 0
    if !env.bindOk then (afterReuse ++ [Event.evBind p.sip bindPort], Status.exitFailure)
    else
      let afterBind := afterReuse ++ [Event.evBind p.sip bindPort]
      if p.ifidx ≠ 0 && !env.mcastIfOk then
        (afterBind ++ [Event.evSetMcastIf p.ifidx], Status.exitFailure)
      else
        let afterIf := afterBind ++ (if p.ifidx ≠ 0 then [Event.evSetMcastIf p.ifidx] else [])
        if !env.hopsOk then (afterIf ++ [Event.evSetHops 64], Status.exitFailure)
        else if !env.loopOk then
          (afterIf ++ [Event.evSetHops 64, Event.evSetLoop p.loop], Status.exitFailure)
        else
          let pre := afterIf ++ [Event.evSetHops 64, Event.evSetLoop p.loop]
          let r := sendLoop p 0 env.iters
          (pre ++ r.1, r.2)

/-- Parameter record built by main of multicast6.c before the mode
dispatch, lines 328 to 351: the record is zeroed, sip defaults to
in6addr_any, ifname to the string default and ifidx to 0; the group and
port come from argv[2] and argv[3] (a failed inet_pton leaves the zeroed
group in place), the optional SSM source from argv[4] (a lone dash
meaning unset) and the interface name from argv[5], resolved through the
environment function ntoi, which models if_nametoindex.  The default
SSM-enabled build is modelled, NOSSM being undefined. -/
def parseParam (ntoi : String → Nat) (argv : List String) : Param :=
  let base : Param :=
    { mip := (inet_pton6 (argv.getD 2 "")).getD 0
      port := htons (u16OfInt (atoi (argv.getD 3 "")))
      sip := 0
      ifidx := 0
      ifname := "default"
      ssm := 0
      loop := 0
      bidir := 0 }
  let withSrc :=
    if 5 ≤ argv.length then
      if argv.getD 4 "" ≠ "-" then
        { base with ssm := 1, sip := (inet_pton6 (argv.getD 4 "")).getD 0 }
      else base
    else base
  if 6 ≤ argv.length then
    { withSrc with ifname := argv.getD 5 "", ifidx := ntoi (argv.getD 5 "") }
  else withSrc

/-- main of multicast6.c, lines 325 to 374: usage exit when fewer than
three arguments follow the program name or the mode is unknown; otherwise
the parsed parameters are handed to the thread selected by the mode, with
loop forced to 1 in send mode and bidir forced to 1 in both mode. -/
def main (ntoi : String → Nat) (argv : List String) : Outcome Param :=
  if argv.length < 4 then Outcome.usage
  else if argv.getD 1 "" = "recv" then Outcome.startRecv (parseParam ntoi argv)
  else if argv.getD 1 "" = "send" then
    Outcome.startSend { parseParam ntoi argv with loop := 1 }
  else if argv.getD 1 "" = "both" then
    Outcome.startBoth { parseParam ntoi argv with bidir := 1 }
  else Outcome.usage

end Multicast6

/-! Shape facts about the modelled traces of multicast6.c. -/

namespace Multicast6

theorem readEvent_ne_bind6 (r : Option Datagram) (a b : Nat) :
    readEvent r ≠ Event.evBind a b := by
  cases r <;> simp [readEvent]

theorem readEvent_ne_joinASM6 (r : Option Datagram) (a b : Nat) :
    readEvent r ≠ Event.evJoinASM a b := by
  cases r <;> simp [readEvent]

theorem readEvent_ne_joinSSM6 (r : Option Datagram) (a b c : Nat) :
    readEvent r ≠ Event.evJoinSSM a b c := by
  cases r <;> simp [readEvent]

theorem readEvent_ne_bindDev6 (r : Option Datagram) (s : String) :
    readEvent r ≠ Event.evBindDev s := by
  cases r <;> simp [readEvent]

theorem readEvent_ne_send6 (r : Option Datagram) (a b : Nat) (m : List Nat) :
    readEvent r ≠ Event.evSend a b m := by
  cases r <;> simp [readEvent]

theorem sendLoop_mem6 (it : List (List Nat × Bool)) :
    ∀ i p e, e ∈ (sendLoop p i it).1 → ∃ m, e = Event.evSend p.mip p.port m := by
  induction it with
  | nil => intro i p e h; simp [sendLoop] at h
  | cons hd tl ih =>
    intro i p e h
    simp only [sendLoop] at h
    by_cases hk : hd.2 = true
    · simp [hk] at h
      rcases h with h | h
      · exact ⟨_, h⟩
      · exact ih (i + 1) p e h
    · simp [hk] at h
      exact ⟨_, h⟩

theorem parseParam_loop6 (ntoi : String → Nat) (argv : List String) :
    (parseParam ntoi argv).loop = 0 := by
  by_cases h5 : 5 ≤ argv.length <;> by_cases hd : argv[4]?.getD "" = "-" <;>
    by_cases h6 : 6 ≤ argv.length <;> simp [parseParam, List.getD, h5, hd, h6]

theorem parseParam_bidir6 (ntoi : String → Nat) (argv : List String) :
    (parseParam ntoi argv).bidir = 0 := by
  by_cases h5 : 5 ≤ argv.length <;> by_cases hd : argv[4]?.getD "" = "-" <;>
    by_cases h6 : 6 ≤ argv.length <;> simp [parseParam, List.getD, h5, hd, h6]

theorem parseParam_port6 (ntoi : String → Nat) (argv : List String) :
    (parseParam ntoi argv).port = htons (u16OfInt (atoi (argv.getD 3 ""))) := by
  by_cases h5 : 5 ≤ argv.length <;> by_cases hd : argv[4]?.getD "" = "-" <;>
    by_cases h6 : 6 ≤ argv.length <;> simp [parseParam, List.getD, h5, hd, h6]

theorem parseParam_ssm6 (ntoi : String → Nat) (argv : List String) :
    (parseParam ntoi argv).ssm
      = if 5 ≤ argv.length ∧ argv.getD 4 "" ≠ "-" then 1 else 0 := by
  by_cases h5 : 5 ≤ argv.length <;> by_cases hd : argv[4]?.getD "" = "-" <;>
    by_cases h6 : 6 ≤ argv.length <;> simp [parseParam, List.getD, h5, hd, h6]

theorem recv_thread_socket6 (p : Param) (env : RecvEnv) :
    Event.evSocket ∈ (recv_thread p env).1 := by
  unfold recv_thread
  repeat' split
  all_goals simp

theorem recv_thread_bind6 (p : Param) (env : RecvEnv) (a pr : Nat)
    (h : Event.evBind a pr ∈ (recv_thread p env).1) : a = 0 ∧ pr = p.port := by
  unfold recv_thread at h
  repeat' split at h
  all_goals simp_all [List.mem_append, List.mem_map, readEvent_ne_bind6]

theorem recv_thread_joinASM6 (p : Param) (env : RecvEnv) (g ifc : Nat)
    (h : Event.evJoinASM g ifc ∈ (recv_thread p env).1) : g = p.mip ∧ ifc = p.ifidx := by
  unfold recv_thread at h
  repeat' split at h
  all_goals simp_all [List.mem_append, List.mem_map, readEvent_ne_joinASM6]

theorem recv_thread_joinSSM6 (p : Param) (env : RecvEnv) (g src ifc : Nat)
    (h : Event.evJoinSSM g src ifc ∈ (recv_thread p env).1) :
    g = p.mip ∧ src = p.sip ∧ ifc = p.ifidx := by
  unfold recv_thread at h
  repeat' split at h
  all_goals simp_all [List.mem_append, List.mem_map, readEvent_ne_joinSSM6]

theorem recv_thread_ok6 (p : Param) (env : RecvEnv)
    (hs : env.socketOk = true) (hr : env.reuseOk = true)
    (hb : env.bindOk = true) (hd : env.bindDevOk = true) (hj : env.joinOk = true) :
    recv_thread p env = (recvSetupEvents p ++ List.map readEvent env.reads, Status.running) := by
  unfold recv_thread recvSetupEvents
  by_cases h0 : p.ssm = 0 <;> by_cases h1 : p.ssm = 1 <;>
    simp [hs, hr, hb, hd, hj, h0, h1]

theorem recv_thread_bind_fail6 (p : Param) (env : RecvEnv)
    (hs : env.socketOk = true) (hr : env.reuseOk = true) (hb : env.bindOk = false) :
    (recv_thread p env).2 = Status.exitFailure := by
  unfold recv_thread
  simp [hs, hr, hb]

theorem recv_thread_join_fail6 (p : Param) (env : RecvEnv)
    (hs : env.socketOk = true) (hr : env.reuseOk = true) (hb : env.bindOk = true)
    (hj : env.joinOk = false)
    (hssm : p.ssm = 0 ∨ (p.ssm = 1 ∧ env.bindDevOk = true)) :
    (recv_thread p env).2 = Status.exitFailure := by
  unfold recv_thread
  rcases hssm with h0 | ⟨h1, hdev⟩
  · simp [hs, hr, hb, hj, h0]
  · by_cases h0 : p.ssm = 0
    · simp [hs, hr, hb, hj, h0]
    · simp [hs, hr, hb, hj, h0, h1, hdev]

theorem send_thread_bind6 (p : Param) (env : SendEnv) (a pr : Nat)
    (h : Event.evBind a pr ∈ (send_thread p env).1) :
    a = p.sip ∧ pr = (if p.bidir = 1 then p.port else 0) := by
  unfold send_thread at h
  repeat' split at h
  all_goals
    try simp_all [List.mem_append, readEvent_ne_bind6]
  all_goals
    first
      | (obtain ⟨m2, hm⟩ := sendLoop_mem6 env.iters 0 p _ h
         simp_all)
      | (rcases h with h | h
         · simp_all
         · obtain ⟨m2, hm⟩ := sendLoop_mem6 env.iters 0 p _ h
           simp_all)

theorem send_thread_send6 (p : Param) (env : SendEnv) (d dp : Nat) (m : List Nat)
    (h : Event.evSend d dp m ∈ (send_thread p env).1) : d = p.mip ∧ dp = p.port := by
  unfold send_thread at h
  repeat' split at h
  all_goals
    try simp_all [List.mem_append]
  all_goals
    first
      | (obtain ⟨m2, hm⟩ := sendLoop_mem6 env.iters 0 p _ h
         simp_all)
      | (rcases h with h | h
         · simp_all
         · obtain ⟨m2, hm⟩ := sendLoop_mem6 env.iters 0 p _ h
           simp_all)

theorem send_thread_mcastif6 (p : Param) (env : SendEnv) (ifc : Nat)
    (h : Event.evSetMcastIf ifc ∈ (send_thread p env).1) : ifc = p.ifidx := by
  unfold send_thread at h
  repeat' split at h
  all_goals
    try simp_all [List.mem_append]
  all_goals
    first
      | (obtain ⟨m2, hm⟩ := sendLoop_mem6 env.iters 0 p _ h
         simp_all)
      | (rcases h with h | h
         · simp_all
         · obtain ⟨m2, hm⟩ := sendLoop_mem6 env.iters 0 p _ h
           simp_all)

end Multicast6


/-! Arithmetic facts about the decimal rendering used by the %06d
conversion. -/

theorem ntohs_htons (x : Nat) (h : x < 65536) : ntohs (htons x) = x := by
  unfold ntohs htons
  have h1 : x % 256 < 256 := Nat.mod_lt _ (by omega)
  have h2 : x / 256 < 256 := by omega
  rw [Nat.mod_eq_of_lt h2, Nat.mul_comm (x % 256) 256, Nat.mul_add_mod,
    Nat.mod_eq_of_lt h2, Nat.mul_add_div (by omega), Nat.div_eq_of_lt h2,
    Nat.add_zero, Nat.mod_eq_of_lt h1]
  omega

theorem u16OfInt_lt (n : Int) : u16OfInt n < 65536 := by
  unfold u16OfInt
  have h1 : 0 ≤ n % 65536 := Int.emod_nonneg n (by omega)
  have h2 : n % 65536 < 65536 := Int.emod_lt_of_pos n (by omega)
  omega

theorem decDigitsAux_congr :
    ∀ f1 f2 n, n < f1 → n < f2 → decDigitsAux f1 n = decDigitsAux f2 n := by
  intro f1
  induction f1 with
  | zero => intro f2 n h1; omega
  | succ a ih =>
    intro f2 n h1 h2
    cases f2 with
    | zero => omega
    | succ b =>
      simp only [decDigitsAux]
      by_cases h : n < 10
      · simp [h]
      · simp only [if_neg h]
        have hd : n / 10 < n := Nat.div_lt_self (by omega) (by omega)
        rw [ih b (n / 10) (by omega) (by omega)]

theorem decDigits_lt10 (n : Nat) (h : n < 10) : decDigits n = [n] := by
  simp [decDigits, decDigitsAux, h]

theorem decDigits_step (n : Nat) (h : 10 ≤ n) :
    decDigits n = decDigits (n / 10) ++ [n % 10] := by
  have hd : n / 10 < n := Nat.div_lt_self (by omega) (by omega)
  show decDigitsAux (n + 1) n = decDigitsAux (n / 10 + 1) (n / 10) ++ [n % 10]
  rw [show decDigitsAux (n + 1) n
      = if n < 10 then [n] else decDigitsAux n (n / 10) ++ [n % 10] from rfl]
  rw [if_neg (by omega : ¬ n < 10)]
  rw [decDigitsAux_congr n (n / 10 + 1) (n / 10) (by omega) (by omega)]

theorem decDigits_ne_nil (n : Nat) : decDigits n ≠ [] := by
  by_cases h : n < 10
  · rw [decDigits_lt10 n h]; simp
  · rw [decDigits_step n (by omega)]; simp

theorem ofDigits_append_singleton (xs : List Nat) (d : Nat) :
    ofDigits (xs ++ [d]) = 10 * ofDigits xs + d := by
  unfold ofDigits
  rw [List.foldl_append]
  rfl

theorem ofDigits_decDigits : ∀ n, ofDigits (decDigits n) = n := by
  intro n
  induction n using Nat.strong_induction_on with
  | _ n ih =>
    by_cases h : n < 10
    · rw [decDigits_lt10 n h]
      simp [ofDigits]
    · rw [decDigits_step n (by omega), ofDigits_append_singleton,
        ih (n / 10) (Nat.div_lt_self (by omega) (by omega))]
      omega

theorem foldl_digits_replicate_zero :
    ∀ k, List.foldl (fun a d => 10 * a + d) 0 (List.replicate k 0) = 0 := by
  intro k
  induction k with
  | zero => rfl
  | succ k ih => simpa [List.replicate_succ] using ih

theorem ofDigits_fmt06 (n : Nat) : ofDigits (fmt06 n) = n := by
  unfold fmt06 ofDigits
  rw [List.foldl_append, foldl_digits_replicate_zero]
  exact ofDigits_decDigits n

theorem fmt06_injective (a b : Nat) (h : fmt06 a = fmt06 b) : a = b := by
  have := congrArg ofDigits h
  rwa [ofDigits_fmt06, ofDigits_fmt06] at this

theorem decDigits_length_le :
    ∀ k n, n < 10 ^ (k + 1) → (decDigits n).length ≤ k + 1 := by
  intro k
  induction k with
  | zero =>
    intro n h
    rw [decDigits_lt10 n (by simpa using h)]
    simp
  | succ k ih =>
    intro n h
    by_cases h10 : n < 10
    · rw [decDigits_lt10 n h10]; simp
    · rw [decDigits_step n (by omega)]
      have hp : (10 : Nat) ^ (k + 1 + 1) = 10 ^ (k + 1) * 10 := pow_succ 10 (k + 1)
      have hd : n / 10 < 10 ^ (k + 1) := by
        rw [hp] at h
        omega
      have := ih (n / 10) hd
      simp only [List.length_append, List.length_singleton]
      omega

theorem decDigits_length_ge :
    ∀ k n, 10 ^ k ≤ n → k + 1 ≤ (decDigits n).length := by
  intro k
  induction k with
  | zero =>
    intro n _
    have := decDigits_ne_nil n
    cases hd : decDigits n with
    | nil => exact absurd hd this
    | cons a l => simp
  | succ k ih =>
    intro n h
    have hpow : (10 : Nat) ^ 1 ≤ 10 ^ (k + 1) := Nat.pow_le_pow_right (by omega) (by omega)
    have h10 : 10 ≤ n := by
      have := le_trans hpow h
      simpa using this
    rw [decDigits_step n h10]
    have hs : (10 : Nat) ^ (k + 1) = 10 ^ k * 10 := pow_succ 10 k
    have hd : 10 ^ k ≤ n / 10 := (Nat.le_div_iff_mul_le (by omega)).mpr (by omega)
    have := ih (n / 10) hd
    simp only [List.length_append, List.length_singleton]
    omega

theorem fmt06_length_eq (n : Nat) (h : n < 1000000) : (fmt06 n).length = 6 := by
  have hle : (decDigits n).length ≤ 6 := by
    have : n < 10 ^ (5 + 1) := by norm_num; omega
    simpa using decDigits_length_le 5 n this
  simp only [fmt06, List.length_append, List.length_replicate]
  omega

theorem fmt06_length_gt (n : Nat) (h : 1000000 ≤ n) : 6 < (fmt06 n).length := by
  have hge : 7 ≤ (decDigits n).length := by
    have : (10 : Nat) ^ 6 ≤ n := by norm_num; omega
    simpa using decDigits_length_ge 6 n this
  simp only [fmt06, List.length_append, List.length_replicate]
  omega

/-! Shape facts about the modelled traces of multicast.c. -/

namespace Multicast

theorem readEvent_ne_bind (r : Option Datagram) (a b : Nat) :
    readEvent r ≠ Event.evBind a b := by
  cases r <;> simp [readEvent]

theorem readEvent_ne_joinASM (r : Option Datagram) (a b : Nat) :
    readEvent r ≠ Event.evJoinASM a b := by
  cases r <;> simp [readEvent]

theorem readEvent_ne_joinSSM (r : Option Datagram) (a b c : Nat) :
    readEvent r ≠ Event.evJoinSSM a b c := by
  cases r <;> simp [readEvent]

theorem readEvent_ne_send (r : Option Datagram) (a b : Nat) (m : List Nat) :
    readEvent r ≠ Event.evSend a b m := by
  cases r <;> simp [readEvent]

theorem sendLoop_mem (it : List (List Nat × Bool)) :
    ∀ i p e, e ∈ (sendLoop p i it).1 → ∃ m, e = Event.evSend p.mip p.port m := by
  induction it with
  | nil => intro i p e h; simp [sendLoop] at h
  | cons hd tl ih =>
    intro i p e h
    simp only [sendLoop] at h
    by_cases hk : hd.2 = true
    · simp [hk] at h
      rcases h with h | h
      · exact ⟨_, h⟩
      · exact ih (i + 1) p e h
    · simp [hk] at h
      exact ⟨_, h⟩

theorem parseParam_loop (argv : List String) : (parseParam argv).loop = 0 := by
  by_cases h5 : 5 ≤ argv.length <;> by_cases hd : argv[4]?.getD "" = "-" <;>
    by_cases h6 : 6 ≤ argv.length <;> simp [parseParam, List.getD, h5, hd, h6]

theorem parseParam_bidir (argv : List String) : (parseParam argv).bidir = 0 := by
  by_cases h5 : 5 ≤ argv.length <;> by_cases hd : argv[4]?.getD "" = "-" <;>
    by_cases h6 : 6 ≤ argv.length <;> simp [parseParam, List.getD, h5, hd, h6]

theorem parseParam_port (argv : List String) :
    (parseParam argv).port = htons (u16OfInt (atoi (argv.getD 3 ""))) := by
  by_cases h5 : 5 ≤ argv.length <;> by_cases hd : argv[4]?.getD "" = "-" <;>
    by_cases h6 : 6 ≤ argv.length <;> simp [parseParam, List.getD, h5, hd, h6]

theorem parseParam_ssm (argv : List String) :
    (parseParam argv).ssm = if 5 ≤ argv.length ∧ argv.getD 4 "" ≠ "-" then 1 else 0 := by
  by_cases h5 : 5 ≤ argv.length <;> by_cases hd : argv[4]?.getD "" = "-" <;>
    by_cases h6 : 6 ≤ argv.length <;> simp [parseParam, List.getD, h5, hd, h6]

theorem recv_thread_socket (p : Param) (env : RecvEnv) :
    Event.evSocket ∈ (recv_thread p env).1 := by
  unfold recv_thread
  repeat' split
  all_goals simp

theorem recv_thread_bind (p : Param) (env : RecvEnv) (a pr : Nat)
    (h : Event.evBind a pr ∈ (recv_thread p env).1) : a = 0 ∧ pr = p.port := by
  unfold recv_thread at h
  repeat' split at h
  all_goals simp_all [List.mem_append, List.mem_map, readEvent_ne_bind]

theorem recv_thread_joinASM (p : Param) (env : RecvEnv) (g ifc : Nat)
    (h : Event.evJoinASM g ifc ∈ (recv_thread p env).1) : g = p.mip ∧ ifc = p.ifip := by
  unfold recv_thread at h
  repeat' split at h
  all_goals simp_all [List.mem_append, List.mem_map, readEvent_ne_joinASM]

theorem recv_thread_joinSSM (p : Param) (env : RecvEnv) (g ifc src : Nat)
    (h : Event.evJoinSSM g ifc src ∈ (recv_thread p env).1) :
    g = p.mip ∧ ifc = p.ifip ∧ src = p.sip := by
  unfold recv_thread at h
  repeat' split at h
  all_goals simp_all [List.mem_append, List.mem_map, readEvent_ne_joinSSM]

theorem recv_thread_ok (p : Param) (env : RecvEnv)
    (hs : env.socketOk = true) (hr : env.reuseOk = true)
    (hb : env.bindOk = true) (hj : env.joinOk = true) :
    recv_thread p env = (recvSetupEvents p ++ List.map readEvent env.reads, Status.running) := by
  unfold recv_thread recvSetupEvents
  by_cases h0 : p.ssm = 0 <;> by_cases h1 : p.ssm = 1 <;>
    simp [hs, hr, hb, hj, h0, h1]

theorem recv_thread_bind_fail (p : Param) (env : RecvEnv)
    (hs : env.socketOk = true) (hr : env.reuseOk = true) (hb : env.bindOk = false) :
    (recv_thread p env).2 = Status.exitFailure := by
  unfold recv_thread
  simp [hs, hr, hb]

theorem recv_thread_join_fail (p : Param) (env : RecvEnv)
    (hs : env.socketOk = true) (hr : env.reuseOk = true) (hb : env.bindOk = true)
    (hj : env.joinOk = false) (hssm : p.ssm = 0 ∨ p.ssm = 1) :
    (recv_thread p env).2 = Status.exitFailure := by
  unfold recv_thread
  rcases hssm with h0 | h1
  · simp [hs, hr, hb, hj, h0]
  · by_cases h0 : p.ssm = 0
    · simp [hs, hr, hb, hj, h0]
    · simp [hs, hr, hb, hj, h0, h1]

theorem send_thread_bind (p : Param) (env : SendEnv) (a pr : Nat)
    (h : Event.evBind a pr ∈ (send_thread p env).1) :
    a = p.ifip ∧ pr = (if p.bidir = 1 then p.port else 0) := by
  unfold send_thread at h
  repeat' split at h
  all_goals
    try simp_all [List.mem_append, readEvent_ne_bind]
  all_goals
    first
      | (obtain ⟨m2, hm⟩ := sendLoop_mem env.iters 0 p _ h
         simp_all)
      | (rcases h with h | h
         · simp_all
         · obtain ⟨m2, hm⟩ := sendLoop_mem env.iters 0 p _ h
           simp_all)

theorem send_thread_send (p : Param) (env : SendEnv) (d dp : Nat) (m : List Nat)
    (h : Event.evSend d dp m ∈ (send_thread p env).1) : d = p.mip ∧ dp = p.port := by
  unfold send_thread at h
  repeat' split at h
  all_goals
    try simp_all [List.mem_append]
  all_goals
    first
      | (obtain ⟨m2, hm⟩ := sendLoop_mem env.iters 0 p _ h
         simp_all)
      | (rcases h with h | h
         · simp_all
         · obtain ⟨m2, hm⟩ := sendLoop_mem env.iters 0 p _ h
           simp_all)

theorem send_thread_mcastif (p : Param) (env : SendEnv) (ifc : Nat)
    (h : Event.evSetMcastIf ifc ∈ (send_thread p env).1) : ifc = p.ifip := by
  unfold send_thread at h
  repeat' split at h
  all_goals
    try simp_all [List.mem_append]
  all_goals
    first
      | (obtain ⟨m2, hm⟩ := sendLoop_mem env.iters 0 p _ h
         simp_all)
      | (rcases h with h | h
         · simp_all
         · obtain ⟨m2, hm⟩ := sendLoop_mem env.iters 0 p _ h
           simp_all)

end Multicast


/-! Claims. -/

/-- Claim C5, counterexample: the claim states that an output byte of the
receive-loop sanitization is a period if and only if the input byte was
not printable.  At the concrete input payload consisting of the single
byte 46 (the period itself, which is printable), the output byte is a
period although the input byte was printable, refuting the only-if
direction. -/
theorem c5_counterexample :
    (sanitize [46]).getD 0 0 = 46 ∧ isprintB 46 = true ∧ sanitize [46] = [46] := by
  decide

/-- Claim C5, amended: for every payload sanitized by the receive loop,
the output has the same length as the input; each output byte is the
corresponding input byte or the period byte 46; an output byte differs
from its input byte exactly when the input byte was not printable (and is
then the period); and an output byte is the period exactly when the input
byte was not printable or was itself the period. -/
theorem c5_sanitize_amended : ∀ (l : List Nat),
    (sanitize l).length = l.length ∧
    (∀ (i b : Nat), l[i]? = some b →
      (sanitize l)[i]? = some (if isprintB b then b else 46) ∧
      ((if isprintB b then b else 46) = b ∨ (if isprintB b then b else 46) = 46) ∧
      (((if isprintB b then b else 46) ≠ b) ↔ isprintB b = false) ∧
      (((if isprintB b then b else 46) = 46) ↔ (isprintB b = false ∨ b = 46))) := by
  intro l
  constructor
  · simp [sanitize]
  · intro i b hb
    have hmap : (sanitize l)[i]? = some (if isprintB b then b else 46) := by
      simp [sanitize, List.getElem?_map, hb]
    by_cases hp : isprintB b = true
    · refine ⟨hmap, Or.inl (by simp [hp]), ?_, ?_⟩ <;> simp [hp]
    · have hf : isprintB b = false := by simpa using hp
      have hne : b ≠ 46 := by
        intro e
        subst e
        simp [isprintB] at hf
      refine ⟨hmap, Or.inr (by simp [hf]), ?_, ?_⟩ <;> simp [hf, hne]
      exact fun e => absurd e.symm hne

/-- Claim C5, witness: the amended theorem applied to the concrete
payload consisting of a period byte and the non-printable byte 7. -/
theorem c5_sanitize_amended_witness :
    (sanitize [46, 7]).length = [46, 7].length ∧
    (sanitize [46, 7])[1]? = some (if isprintB 7 then 7 else 46) :=
  ⟨(c5_sanitize_amended [46, 7]).1,
   ((c5_sanitize_amended [46, 7]).2 1 7 (by decide)).1⟩

/-- Claim C3, counterexample: the claim states the rendered sequence
suffix is zero padded to six digits and wraps on reaching 10 ^ 6.  At
iteration 1000000 of the IPv4 send loop the rendered suffix is the seven
digit string 1000000 (bytes 49 48 48 48 48 48 48): it is not six digits
wide and it has not wrapped to the suffix of iteration 0. -/
theorem c3_counterexample :
    Multicast.message 1000000 [49, 50, 51, 52, 53, 54]
      = [46, 42, 46, 46, 46, 46, 47, 49, 50, 51, 52, 53, 54, 47,
         49, 48, 48, 48, 48, 48, 48] ∧
    (Multicast.seqField 1000000).length = 7 ∧
    Multicast.seqField 1000000 ≠ Multicast.seqField 0 := by
  decide

/-- Claim C3, amended: the sequence value advances by exactly 1 per
datagram, starting at 0 for the IPv4 sender and at 1 for the numbered
suffix of the IPv6 sender; the rendered suffix terminates the payload; it
is exactly six zero-padded digits while the value is below 10 ^ 6; the
field widens beyond six digits from 10 ^ 6 on; and the rendering never
wraps: distinct counter values always render distinct suffixes. -/
theorem c3_sequence_amended :
    (∀ i, Multicast.seqVal (i + 1) = Multicast.seqVal i + 1) ∧
    Multicast.seqVal 0 = 0 ∧
    (∀ i, Multicast6.seqVal (i + 1) = Multicast6.seqVal i + 1) ∧
    Multicast6.seqVal 0 = 1 ∧
    (∀ i t, ∃ pre, Multicast.message i t = pre ++ Multicast.seqField i) ∧
    (∀ i t, ∃ pre, Multicast6.message i t = pre ++ Multicast6.seqField i) ∧
    (∀ n, n < 1000000 → (fmt06 n).length = 6) ∧
    (∀ n, 1000000 ≤ n → 6 < (fmt06 n).length) ∧
    (∀ a b, fmt06 a = fmt06 b → a = b) ∧
    (∀ a b, Multicast.seqField a = Multicast.seqField b → a = b) ∧
    (∀ a b, Multicast6.seqField a = Multicast6.seqField b → a = b) := by
  have hadd : Function.Injective (fun d : Nat => d + 48) := by
    intro x y h
    simpa using h
  have hmap : ∀ a b, List.map (fun d : Nat => d + 48) (fmt06 a)
      = List.map (fun d : Nat => d + 48) (fmt06 b) → a = b := by
    intro a b h
    exact fmt06_injective a b (List.map_injective_iff.mpr hadd h)
  refine ⟨fun i => rfl, rfl, fun i => rfl, rfl, ?_, ?_, fmt06_length_eq,
    fmt06_length_gt, fmt06_injective, ?_, ?_⟩
  · intro i t
    exact ⟨Multicast.fixstr.drop (i % 6) ++ Multicast.fixstr.take (i % 6)
      ++ [47] ++ t ++ [47], by simp [Multicast.message]⟩
  · intro i t
    exact ⟨(Multicast6.fixstr i).drop (6 - i % 6) ++ (Multicast6.fixstr i).take (6 - i % 6)
      ++ [47] ++ t ++ [47], by simp [Multicast6.message]⟩
  · intro a b h
    exact hmap a b h
  · intro a b h
    have := hmap (a + 1) (b + 1) h
    omega

/-- Claim C3, witness: the amended theorem applied at concrete counter
values, giving the exact six digit width below 10 ^ 6 and the widened
field at 10 ^ 6. -/
theorem c3_sequence_amended_witness :
    (fmt06 123).length = 6 ∧ 6 < (fmt06 1000000).length :=
  ⟨c3_sequence_amended.2.2.2.2.2.2.1 123 (by decide),
   c3_sequence_amended.2.2.2.2.2.2.2.1 1000000 (by decide)⟩

/-- Claim C1, counterexample: the claim states the loopback flag is also
forced true for the sender in both (bidirectional) mode.  At the concrete
invocation multicast both 239.1.1.1 12345, main starts both threads with
loop still 0: only bidir is forced to 1, so the bidirectional sender runs
with loopback disabled. -/
theorem c1_counterexample :
    Multicast.main ["multicast", "both", "239.1.1.1", "12345"]
      = Outcome.startBoth
          { mip := 4009820417, port := 14640, sip := 0, ifip := 0,
            ssm := 0, loop := 0, bidir := 1 } ∧
    Multicast.Param.loop
        { mip := 4009820417, port := 14640, sip := 0, ifip := 0,
          ssm := 0, loop := 0, bidir := 1 } = 0 := by
  decide

/-- Claim C1, amended: in both programs the loopback flag is forced to 1
exactly when the mode is send; in recv mode and in both (bidirectional)
mode it keeps its zeroed default 0, so the bidirectional sender runs with
loopback disabled; both mode forces bidir to 1 instead. -/
theorem c1_loopback_amended :
    (∀ argv p, Multicast.main argv = Outcome.startSend p → p.loop = 1) ∧
    (∀ argv p, Multicast.main argv = Outcome.startRecv p → p.loop = 0) ∧
    (∀ argv p, Multicast.main argv = Outcome.startBoth p → p.loop = 0 ∧ p.bidir = 1) ∧
    (∀ ntoi argv p, Multicast6.main ntoi argv = Outcome.startSend p → p.loop = 1) ∧
    (∀ ntoi argv p, Multicast6.main ntoi argv = Outcome.startRecv p → p.loop = 0) ∧
    (∀ ntoi argv p, Multicast6.main ntoi argv = Outcome.startBoth p →
      p.loop = 0 ∧ p.bidir = 1) := by
  refine ⟨?_, ?_, ?_, ?_, ?_, ?_⟩
  · intro argv p h
    unfold Multicast.main at h
    repeat' split at h
    all_goals simp_all
    subst h
    simp
  · intro argv p h
    unfold Multicast.main at h
    repeat' split at h
    all_goals simp_all
    subst h
    exact Multicast.parseParam_loop argv
  · intro argv p h
    unfold Multicast.main at h
    repeat' split at h
    all_goals simp_all
    subst h
    simp [Multicast.parseParam_loop argv]
  · intro ntoi argv p h
    unfold Multicast6.main at h
    repeat' split at h
    all_goals simp_all
    subst h
    simp
  · intro ntoi argv p h
    unfold Multicast6.main at h
    repeat' split at h
    all_goals simp_all
    subst h
    exact Multicast6.parseParam_loop6 ntoi argv
  · intro ntoi argv p h
    unfold Multicast6.main at h
    repeat' split at h
    all_goals simp_all
    subst h
    simp [Multicast6.parseParam_loop6 ntoi argv]

/-- Claim C1, witness: the amended theorem applied at a concrete send
mode invocation, which does force loopback on. -/
theorem c1_loopback_amended_witness :
    Multicast.Param.loop
        { mip := 4009820417, port := 14640, sip := 0, ifip := 0,
          ssm := 0, loop := 1, bidir := 0 } = 1 :=
  c1_loopback_amended.1 ["multicast", "send", "239.1.1.1", "12345"] _ (by decide)

/-- Claim C2, counterexample: the claim states a malformed group address
is reported as a parse error and the process terminates before any socket
is created.  At the concrete invocation multicast recv not-an-address
12345, main performs no check: it starts the receiver thread with the
inet_addr failure value INADDR_NONE stored as the group address, and that
thread's first action is the socket creation call. -/
theorem c2_counterexample :
    Multicast.main ["multicast", "recv", "not-an-address", "12345"]
      = Outcome.startRecv
          { mip := 4294967295, port := 14640, sip := 0, ifip := 0,
            ssm := 0, loop := 0, bidir := 0 } ∧
    Multicast.Event.evSocket ∈
      (Multicast.recv_thread
          { mip := 4294967295, port := 14640, sip := 0, ifip := 0,
            ssm := 0, loop := 0, bidir := 0 }
          { socketOk := true, reuseOk := true, bindOk := true, joinOk := true,
            reads := [] }).1 := by
  decide

/-- Claim C2, amended: a malformed group address is never rejected.  For
every group string on which the address parse fails, the IPv4 program
stores the inet_addr failure value INADDR_NONE as the group address, the
IPv6 program leaves the zeroed group address in place, and each program
proceeds to start its receiver thread, which always reaches the socket
creation call, whatever the environment. -/
theorem c2_no_parse_error_amended :
    (∀ g pt, inet_addr g = 4294967295 →
      Multicast.main ["multicast", "recv", g, pt]
        = Outcome.startRecv (Multicast.parseParam ["multicast", "recv", g, pt]) ∧
      (Multicast.parseParam ["multicast", "recv", g, pt]).mip = 4294967295 ∧
      ∀ env, Multicast.Event.evSocket ∈
        (Multicast.recv_thread (Multicast.parseParam ["multicast", "recv", g, pt]) env).1) ∧
    (∀ ntoi g pt, inet_pton6 g = none →
      Multicast6.main ntoi ["multicast6", "recv", g, pt]
        = Outcome.startRecv (Multicast6.parseParam ntoi ["multicast6", "recv", g, pt]) ∧
      (Multicast6.parseParam ntoi ["multicast6", "recv", g, pt]).mip = 0 ∧
      ∀ env, Multicast6.Event.evSocket ∈
        (Multicast6.recv_thread (Multicast6.parseParam ntoi ["multicast6", "recv", g, pt]) env).1) := by
  constructor
  · intro g pt hg
    refine ⟨by simp [Multicast.main], ?_, ?_⟩
    · simp [Multicast.parseParam, hg]
    · intro env
      exact Multicast.recv_thread_socket _ env
  · intro ntoi g pt hg
    refine ⟨by simp [Multicast6.main], ?_, ?_⟩
    · simp [Multicast6.parseParam, hg]
    · intro env
      exact Multicast6.recv_thread_socket6 _ env

/-- Claim C2, witness: the amended theorem applied to the concrete
malformed addresses not-an-address for both programs. -/
theorem c2_no_parse_error_amended_witness :
    (Multicast.parseParam ["multicast", "recv", "not-an-address", "12345"]).mip
      = 4294967295 ∧
    (Multicast6.parseParam (fun _ => 0)
        ["multicast6", "recv", "not-an-address", "12345"]).mip = 0 :=
  ⟨(c2_no_parse_error_amended.1 "not-an-address" "12345" (by decide)).2.1,
   (c2_no_parse_error_amended.2 (fun _ => 0) "not-an-address" "12345" (by decide)).2.1⟩

/-- Claim C10, confirmed: in both programs the port used by the loops is
atoi of argv[3] reduced modulo 2 ^ 16 (read back through ntohs, since
the field stores the network byte order value): the receiver binds
exactly that stored port and the sender addresses every datagram to it;
out of range values are silently reduced, as at the concrete argument
70000, which yields port 4464; and a non-numeric argument such as abc
yields port 0 and the threads still start, rather than a usage error. -/
theorem c10_port_truncation :
    (∀ argv, ntohs (Multicast.parseParam argv).port
      = ((atoi (argv.getD 3 "")) % 65536).toNat) ∧
    (∀ ntoi argv, ntohs (Multicast6.parseParam ntoi argv).port
      = ((atoi (argv.getD 3 "")) % 65536).toNat) ∧
    (∀ p env a pr, Multicast.Event.evBind a pr ∈ (Multicast.recv_thread p env).1 →
      pr = p.port) ∧
    (∀ p env d dp m, Multicast.Event.evSend d dp m ∈ (Multicast.send_thread p env).1 →
      dp = p.port) ∧
    atoi "abc" = 0 ∧
    ((atoi "70000") % 65536).toNat = 4464 ∧
    Multicast.main ["multicast", "recv", "239.1.1.1", "abc"]
      = Outcome.startRecv
          { mip := 4009820417, port := 0, sip := 0, ifip := 0,
            ssm := 0, loop := 0, bidir := 0 } := by
  refine ⟨?_, ?_, ?_, ?_, by decide, by decide, by decide⟩
  · intro argv
    rw [Multicast.parseParam_port, ntohs_htons _ (u16OfInt_lt _)]
    rfl
  · intro ntoi argv
    rw [Multicast6.parseParam_port6, ntohs_htons _ (u16OfInt_lt _)]
    rfl
  · intro p env a pr h
    exact (Multicast.recv_thread_bind p env a pr h).2
  · intro p env d dp m h
    exact (Multicast.send_thread_send p env d dp m h).2

/-- Claim C10, witness: the theorem applied at a concrete invocation with
an out of range port argument and at a concrete receiver bind event. -/
theorem c10_port_truncation_witness :
    ntohs (Multicast.parseParam ["multicast", "recv", "239.1.1.1", "70000"]).port
      = ((atoi "70000") % 65536).toNat ∧
    (14640 : Nat)
      = (Multicast.Param.port
          { mip := 4009820417, port := 14640, sip := 0, ifip := 0,
            ssm := 0, loop := 0, bidir := 0 }) :=
  ⟨c10_port_truncation.1 ["multicast", "recv", "239.1.1.1", "70000"],
   c10_port_truncation.2.2.1
     { mip := 4009820417, port := 14640, sip := 0, ifip := 0,
       ssm := 0, loop := 0, bidir := 0 }
     { socketOk := true, reuseOk := true, bindOk := true, joinOk := true, reads := [] }
     0 14640 (by decide)⟩

/-- Claim C9, confirmed: in both programs every bind issued by the
receiver thread uses the wildcard address (INADDR_ANY respectively
in6addr_any, both 0 in the model) and the configured port, whatever the
interface selector; the interface selector appears instead in the
membership joins (ASM and SSM) and in the sender's egress interface
option. -/
theorem c9_recv_bind_wildcard :
    (∀ p env a pr, Multicast.Event.evBind a pr ∈ (Multicast.recv_thread p env).1 →
      a = 0 ∧ pr = p.port) ∧
    (∀ p env g ifc, Multicast.Event.evJoinASM g ifc ∈ (Multicast.recv_thread p env).1 →
      g = p.mip ∧ ifc = p.ifip) ∧
    (∀ p env ifc, Multicast.Event.evSetMcastIf ifc ∈ (Multicast.send_thread p env).1 →
      ifc = p.ifip) ∧
    (∀ p env a pr, Multicast6.Event.evBind a pr ∈ (Multicast6.recv_thread p env).1 →
      a = 0 ∧ pr = p.port) ∧
    (∀ p env g ifc, Multicast6.Event.evJoinASM g ifc ∈ (Multicast6.recv_thread p env).1 →
      g = p.mip ∧ ifc = p.ifidx) ∧
    (∀ p env ifc, Multicast6.Event.evSetMcastIf ifc ∈ (Multicast6.send_thread p env).1 →
      ifc = p.ifidx) :=
  ⟨Multicast.recv_thread_bind, Multicast.recv_thread_joinASM,
   Multicast.send_thread_mcastif, Multicast6.recv_thread_bind6,
   Multicast6.recv_thread_joinASM6, Multicast6.send_thread_mcastif6⟩

/-- Claim C9, witness: the theorem applied to a concrete receiver run
with a non-wildcard interface selector, whose bind event still carries
the wildcard address 0 and the configured port. -/
theorem c9_recv_bind_wildcard_witness :
    (0 : Nat) = 0 ∧
    (14640 : Nat)
      = Multicast.Param.port
          { mip := 4009820417, port := 14640, sip := 0, ifip := 2886729985,
            ssm := 0, loop := 0, bidir := 0 } :=
  c9_recv_bind_wildcard.1
    { mip := 4009820417, port := 14640, sip := 0, ifip := 2886729985,
      ssm := 0, loop := 0, bidir := 0 }
    { socketOk := true, reuseOk := true, bindOk := true, joinOk := true, reads := [] }
    0 14640 (by decide)

/-- Claim C7, confirmed: in both programs, when the receiver's setup
calls succeed, the thread processes every recvfrom result and is still
running afterwards, a failed read contributing exactly one logged error
event (the loop continues with the remaining reads); by contrast, a
failed bind, and a failed join (in either join path, the IPv6 SSM device
bind included in its path), terminate the process with failure status. -/
theorem c7_receive_error_nonfatal :
    (∀ p env, env.socketOk = true → env.reuseOk = true → env.bindOk = true →
      env.joinOk = true →
      Multicast.recv_thread p env
        = (Multicast.recvSetupEvents p ++ List.map Multicast.readEvent env.reads,
           Status.running) ∧
      Multicast.readEvent none = Multicast.Event.evLogRecvError) ∧
    (∀ p env, env.socketOk = true → env.reuseOk = true → env.bindOk = false →
      (Multicast.recv_thread p env).2 = Status.exitFailure) ∧
    (∀ p env, env.socketOk = true → env.reuseOk = true → env.bindOk = true →
      env.joinOk = false → (p.ssm = 0 ∨ p.ssm = 1) →
      (Multicast.recv_thread p env).2 = Status.exitFailure) ∧
    (∀ p env, env.socketOk = true → env.reuseOk = true → env.bindOk = true →
      env.bindDevOk = true → env.joinOk = true →
      Multicast6.recv_thread p env
        = (Multicast6.recvSetupEvents p ++ List.map Multicast6.readEvent env.reads,
           Status.running) ∧
      Multicast6.readEvent none = Multicast6.Event.evLogRecvError) ∧
    (∀ p env, env.socketOk = true → env.reuseOk = true → env.bindOk = false →
      (Multicast6.recv_thread p env).2 = Status.exitFailure) ∧
    (∀ p env, env.socketOk = true → env.reuseOk = true → env.bindOk = true →
      env.joinOk = false → (p.ssm = 0 ∨ (p.ssm = 1 ∧ env.bindDevOk = true)) →
      (Multicast6.recv_thread p env).2 = Status.exitFailure) := by
  refine ⟨?_, ?_, ?_, ?_, ?_, ?_⟩
  · intro p env hs hr hb hj
    exact ⟨Multicast.recv_thread_ok p env hs hr hb hj, rfl⟩
  · exact Multicast.recv_thread_bind_fail
  · exact Multicast.recv_thread_join_fail
  · intro p env hs hr hb hd hj
    exact ⟨Multicast6.recv_thread_ok6 p env hs hr hb hd hj, rfl⟩
  · exact Multicast6.recv_thread_bind_fail6
  · exact Multicast6.recv_thread_join_fail6

/-- Claim C7, witness: the theorem applied to a concrete run whose first
read fails and whose second read delivers a datagram: the failed read is
logged and the following datagram is still observed, the thread still
running. -/
theorem c7_receive_error_nonfatal_witness :
    Multicast.recv_thread
        { mip := 4009820417, port := 14640, sip := 0, ifip := 0,
          ssm := 0, loop := 0, bidir := 0 }
        { socketOk := true, reuseOk := true, bindOk := true, joinOk := true,
          reads := [none, some { src := 1, sport := 14640, payload := [65] }] }
      = (Multicast.recvSetupEvents
            { mip := 4009820417, port := 14640, sip := 0, ifip := 0,
              ssm := 0, loop := 0, bidir := 0 }
          ++ List.map Multicast.readEvent
              [none, some { src := 1, sport := 14640, payload := [65] }],
         Status.running) :=
  (c7_receive_error_nonfatal.1
    { mip := 4009820417, port := 14640, sip := 0, ifip := 0,
      ssm := 0, loop := 0, bidir := 0 }
    { socketOk := true, reuseOk := true, bindOk := true, joinOk := true,
      reads := [none, some { src := 1, sport := 14640, payload := [65] }] }
    rfl rfl rfl rfl).1

/-- Claim C6, confirmed for multicast.c: the ssm flag of the parsed
parameters is 1 exactly when a source address argument was supplied (a
fifth argument other than a lone dash), and, when the receiver's setup
calls succeed, its trace contains the SSM join and no ASM join when the
source was supplied, and the ASM join and no SSM join otherwise — exactly
one of the two join paths, never both. -/
theorem c6_ssm_join_exclusive :
    ∀ argv env, env.socketOk = true → env.reuseOk = true → env.bindOk = true →
      env.joinOk = true →
      ((Multicast.parseParam argv).ssm = 1 ↔ (5 ≤ argv.length ∧ argv.getD 4 "" ≠ "-")) ∧
      ((5 ≤ argv.length ∧ argv.getD 4 "" ≠ "-") →
        Multicast.Event.evJoinSSM (Multicast.parseParam argv).mip
            (Multicast.parseParam argv).ifip (Multicast.parseParam argv).sip
          ∈ (Multicast.recv_thread (Multicast.parseParam argv) env).1 ∧
        ∀ g i2, Multicast.Event.evJoinASM g i2
          ∉ (Multicast.recv_thread (Multicast.parseParam argv) env).1) ∧
      (¬(5 ≤ argv.length ∧ argv.getD 4 "" ≠ "-") →
        Multicast.Event.evJoinASM (Multicast.parseParam argv).mip
            (Multicast.parseParam argv).ifip
          ∈ (Multicast.recv_thread (Multicast.parseParam argv) env).1 ∧
        ∀ g i2 s, Multicast.Event.evJoinSSM g i2 s
          ∉ (Multicast.recv_thread (Multicast.parseParam argv) env).1) := by
  intro argv env hs hr hb hj
  have hssm := Multicast.parseParam_ssm argv
  have hok := Multicast.recv_thread_ok (Multicast.parseParam argv) env hs hr hb hj
  by_cases hsrc : 5 ≤ argv.length ∧ argv.getD 4 "" ≠ "-"
  · have h1 : (Multicast.parseParam argv).ssm = 1 := by
      rw [hssm, if_pos hsrc]
    refine ⟨⟨fun _ => hsrc, fun _ => h1⟩, fun _ => ?_, fun hc => absurd hsrc hc⟩
    rw [hok]
    constructor
    · simp [Multicast.recvSetupEvents, h1]
    · intro g i2
      simp [Multicast.recvSetupEvents, h1, List.mem_append, List.mem_map,
        Multicast.readEvent_ne_joinASM]
  · have h0 : (Multicast.parseParam argv).ssm = 0 := by
      rw [hssm, if_neg hsrc]
    refine ⟨?_, fun hc => absurd hc hsrc, fun _ => ?_⟩
    · rw [h0]
      exact ⟨fun h => absurd h (by omega), fun hc => absurd hc hsrc⟩
    rw [hok]
    constructor
    · simp [Multicast.recvSetupEvents, h0]
    · intro g i2 s
      simp [Multicast.recvSetupEvents, h0, List.mem_append, List.mem_map,
        Multicast.readEvent_ne_joinSSM]

/-- Claim C6, witness: at a concrete SSM invocation with source
172.16.1.1 the receiver's trace contains the SSM join for exactly the
parsed group, interface and source. -/
theorem c6_ssm_join_exclusive_witness :
    Multicast.Event.evJoinSSM
        (Multicast.parseParam ["multicast", "recv", "239.1.1.1", "12345", "172.16.1.1"]).mip
        (Multicast.parseParam ["multicast", "recv", "239.1.1.1", "12345", "172.16.1.1"]).ifip
        (Multicast.parseParam ["multicast", "recv", "239.1.1.1", "12345", "172.16.1.1"]).sip
      ∈ (Multicast.recv_thread
          (Multicast.parseParam ["multicast", "recv", "239.1.1.1", "12345", "172.16.1.1"])
          { socketOk := true, reuseOk := true, bindOk := true, joinOk := true,
            reads := [] }).1 :=
  ((c6_ssm_join_exclusive ["multicast", "recv", "239.1.1.1", "12345", "172.16.1.1"]
      { socketOk := true, reuseOk := true, bindOk := true, joinOk := true, reads := [] }
      rfl rfl rfl rfl).2.1 (by decide)).1

namespace Multicast

theorem send_thread_flags_of_send (p : Param) (env : SendEnv) (d dp : Nat) (m : List Nat)
    (h : Event.evSend d dp m ∈ (send_thread p env).1) :
    env.socketOk = true ∧ (p.bidir = 1 → env.reuseOk = true) ∧ env.bindOk = true ∧
    (p.ifip ≠ 0 → env.mcastIfOk = true) ∧ env.ttlOk = true ∧ env.loopOk = true := by
  unfold send_thread at h
  repeat' split at h
  all_goals simp_all [List.mem_append]

theorem send_thread_ok_eq (p : Param) (env : SendEnv)
    (hs : env.socketOk = true) (hr : p.bidir = 1 → env.reuseOk = true)
    (hb : env.bindOk = true) (hm : p.ifip ≠ 0 → env.mcastIfOk = true)
    (ht : env.ttlOk = true) (hl : env.loopOk = true) :
    send_thread p env
      = ((if p.bidir = 1 then [Event.evSocket, Event.evSetReuse] else [Event.evSocket])
          ++ [Event.evBind p.ifip (if p.bidir = 1 then p.port else 0)]
          ++ (if p.ifip ≠ 0 then [Event.evSetMcastIf p.ifip] else [])
          ++ [Event.evSetTTL 64, Event.evSetLoop p.loop]
          ++ (sendLoop p 0 env.iters).1,
         (sendLoop p 0 env.iters).2) := by
  unfold send_thread
  by_cases hbd : p.bidir = 1
  · have hr2 := hr hbd
    by_cases hif : p.ifip ≠ 0
    · have hm2 := hm hif
      simp [hs, hr2, hb, hm2, ht, hl, hbd, hif]
    · simp [hs, hr2, hb, ht, hl, hbd, hif]
  · by_cases hif : p.ifip ≠ 0
    · have hm2 := hm hif
      simp [hs, hb, hm2, ht, hl, hbd, hif]
    · simp [hs, hb, ht, hl, hbd, hif]

theorem send_thread_opts_precede (p : Param) (env : SendEnv) (d dp : Nat) (m : List Nat)
    (h : Event.evSend d dp m ∈ (send_thread p env).1) :
    precedes (send_thread p env).1 (Event.evSetTTL 64) (Event.evSend d dp m) ∧
    precedes (send_thread p env).1 (Event.evSetLoop p.loop) (Event.evSend d dp m) := by
  obtain ⟨hs, hr, hb, hm, ht, hl⟩ := send_thread_flags_of_send p env d dp m h
  have he := send_thread_ok_eq p env hs hr hb hm ht hl
  rw [he] at h ⊢
  simp only []
  have hpre : Event.evSend d dp m ∈ (sendLoop p 0 env.iters).1 := by
    by_cases hbd : p.bidir = 1 <;> by_cases hif : p.ifip ≠ 0 <;>
      simp [hbd, hif, List.mem_append] at h <;> tauto
  refine ⟨⟨(if p.bidir = 1 then [Event.evSocket, Event.evSetReuse] else [Event.evSocket])
      ++ [Event.evBind p.ifip (if p.bidir = 1 then p.port else 0)]
      ++ (if p.ifip ≠ 0 then [Event.evSetMcastIf p.ifip] else [])
      ++ [Event.evSetTTL 64, Event.evSetLoop p.loop],
    (sendLoop p 0 env.iters).1, by simp, by simp, hpre⟩,
    ⟨(if p.bidir = 1 then [Event.evSocket, Event.evSetReuse] else [Event.evSocket])
      ++ [Event.evBind p.ifip (if p.bidir = 1 then p.port else 0)]
      ++ (if p.ifip ≠ 0 then [Event.evSetMcastIf p.ifip] else [])
      ++ [Event.evSetTTL 64, Event.evSetLoop p.loop],
    (sendLoop p 0 env.iters).1, by simp, by simp, hpre⟩⟩

theorem send_thread_sockreuse (p : Param) (env : SendEnv) (hbd : p.bidir = 1)
    (hs : env.socketOk = true) (hr : env.reuseOk = true) :
    ∃ rest, (send_thread p env).1 = Event.evSocket :: Event.evSetReuse :: rest := by
  unfold send_thread
  cases hb : env.bindOk <;> cases hm : env.mcastIfOk <;> cases ht : env.ttlOk <;>
    cases hl : env.loopOk <;> by_cases hif : p.ifip ≠ 0 <;>
      simp [hs, hr, hb, hm, ht, hl, hif, hbd]

theorem send_thread_reuse_precedes_bind (p : Param) (env : SendEnv) (a pr : Nat)
    (hbd : p.bidir = 1) (h : Event.evBind a pr ∈ (send_thread p env).1) :
    precedes (send_thread p env).1 Event.evSetReuse (Event.evBind a pr) := by
  cases hs : env.socketOk with
  | false =>
    unfold send_thread at h
    simp [hs] at h
  | true =>
    cases hr : env.reuseOk with
    | false =>
      unfold send_thread at h
      simp [hs, hr, hbd] at h
    | true =>
      obtain ⟨rest, he⟩ := send_thread_sockreuse p env hbd hs hr
      rw [he] at h ⊢
      have hb2 : Event.evBind a pr ∈ rest := by
        simpa using h
      exact ⟨[Event.evSocket, Event.evSetReuse], rest, by simp, by simp, hb2⟩

end Multicast

namespace Multicast6

theorem send_thread_flags_of_send6 (p : Param) (env : SendEnv) (d dp : Nat) (m : List Nat)
    (h : Event.evSend d dp m ∈ (send_thread p env).1) :
    env.socketOk = true ∧ (p.bidir = 1 → env.reuseOk = true) ∧ env.bindOk = true ∧
    (p.ifidx ≠ 0 → env.mcastIfOk = true) ∧ env.hopsOk = true ∧ env.loopOk = true := by
  unfold send_thread at h
  repeat' split at h
  all_goals simp_all [List.mem_append]

theorem send_thread_ok_eq6 (p : Param) (env : SendEnv)
    (hs : env.socketOk = true) (hr : p.bidir = 1 → env.reuseOk = true)
    (hb : env.bindOk = true) (hm : p.ifidx ≠ 0 → env.mcastIfOk = true)
    (ht : env.hopsOk = true) (hl : env.loopOk = true) :
    send_thread p env
      = ((if p.bidir = 1 then [Event.evSocket, Event.evSetReuse] else [Event.evSocket])
          ++ [Event.evBind p.sip (if p.bidir = 1 then p.port else 0)]
          ++ (if p.ifidx ≠ 0 then [Event.evSetMcastIf p.ifidx] else [])
          ++ [Event.evSetHops 64, Event.evSetLoop p.loop]
          ++ (sendLoop p 0 env.iters).1,
         (sendLoop p 0 env.iters).2) := by
  unfold send_thread
  by_cases hbd : p.bidir = 1
  · have hr2 := hr hbd
    by_cases hif : p.ifidx ≠ 0
    · have hm2 := hm hif
      simp [hs, hr2, hb, hm2, ht, hl, hbd, hif]
    · simp [hs, hr2, hb, ht, hl, hbd, hif]
  · by_cases hif : p.ifidx ≠ 0
    · have hm2 := hm hif
      simp [hs, hb, hm2, ht, hl, hbd, hif]
    · simp [hs, hb, ht, hl, hbd, hif]

theorem send_thread_opts_precede6 (p : Param) (env : SendEnv) (d dp : Nat) (m : List Nat)
    (h : Event.evSend d dp m ∈ (send_thread p env).1) :
    precedes (send_thread p env).1 (Event.evSetHops 64) (Event.evSend d dp m) ∧
    precedes (send_thread p env).1 (Event.evSetLoop p.loop) (Event.evSend d dp m) := by
  obtain ⟨hs, hr, hb, hm, ht, hl⟩ := send_thread_flags_of_send6 p env d dp m h
  have he := send_thread_ok_eq6 p env hs hr hb hm ht hl
  rw [he] at h ⊢
  simp only []
  have hpre : Event.evSend d dp m ∈ (sendLoop p 0 env.iters).1 := by
    by_cases hbd : p.bidir = 1 <;> by_cases hif : p.ifidx ≠ 0 <;>
      simp [hbd, hif, List.mem_append] at h <;> tauto
  refine ⟨⟨(if p.bidir = 1 then [Event.evSocket, Event.evSetReuse] else [Event.evSocket])
      ++ [Event.evBind p.sip (if p.bidir = 1 then p.port else 0)]
      ++ (if p.ifidx ≠ 0 then [Event.evSetMcastIf p.ifidx] else [])
      ++ [Event.evSetHops 64, Event.evSetLoop p.loop],
    (sendLoop p 0 env.iters).1, by simp, by simp, hpre⟩,
    ⟨(if p.bidir = 1 then [Event.evSocket, Event.evSetReuse] else [Event.evSocket])
      ++ [Event.evBind p.sip (if p.bidir = 1 then p.port else 0)]
      ++ (if p.ifidx ≠ 0 then [Event.evSetMcastIf p.ifidx] else [])
      ++ [Event.evSetHops 64, Event.evSetLoop p.loop],
    (sendLoop p 0 env.iters).1, by simp, by simp, hpre⟩⟩

theorem send_thread_sockreuse6 (p : Param) (env : SendEnv) (hbd : p.bidir = 1)
    (hs : env.socketOk = true) (hr : env.reuseOk = true) :
    ∃ rest, (send_thread p env).1 = Event.evSocket :: Event.evSetReuse :: rest := by
  unfold send_thread
  cases hb : env.bindOk <;> cases hm : env.mcastIfOk <;> cases ht : env.hopsOk <;>
    cases hl : env.loopOk <;> by_cases hif : p.ifidx ≠ 0 <;>
      simp [hs, hr, hb, hm, ht, hl, hif, hbd]

theorem send_thread_reuse_precedes_bind6 (p : Param) (env : SendEnv) (a pr : Nat)
    (hbd : p.bidir = 1) (h : Event.evBind a pr ∈ (send_thread p env).1) :
    precedes (send_thread p env).1 Event.evSetReuse (Event.evBind a pr) := by
  cases hs : env.socketOk with
  | false =>
    unfold send_thread at h
    simp [hs] at h
  | true =>
    cases hr : env.reuseOk with
    | false =>
      unfold send_thread at h
      simp [hs, hr, hbd] at h
    | true =>
      obtain ⟨rest, he⟩ := send_thread_sockreuse6 p env hbd hs hr
      rw [he] at h ⊢
      have hb2 : Event.evBind a pr ∈ rest := by
        simpa using h
      exact ⟨[Event.evSocket, Event.evSetReuse], rest, by simp, by simp, hb2⟩

end Multicast6

/-- Claim C8, confirmed: in both programs, every datagram handed to
sendto by the sender thread is strictly preceded in the thread's call
trace by the hop-limit option call with value 64 (IP_MULTICAST_TTL
respectively IPV6_MULTICAST_HOPS) and by the loopback option call with
the configured loop flag. -/
theorem c8_options_before_send :
    (∀ p env d dp m, Multicast.Event.evSend d dp m ∈ (Multicast.send_thread p env).1 →
      precedes (Multicast.send_thread p env).1 (Multicast.Event.evSetTTL 64)
        (Multicast.Event.evSend d dp m) ∧
      precedes (Multicast.send_thread p env).1 (Multicast.Event.evSetLoop p.loop)
        (Multicast.Event.evSend d dp m)) ∧
    (∀ p env d dp m, Multicast6.Event.evSend d dp m ∈ (Multicast6.send_thread p env).1 →
      precedes (Multicast6.send_thread p env).1 (Multicast6.Event.evSetHops 64)
        (Multicast6.Event.evSend d dp m) ∧
      precedes (Multicast6.send_thread p env).1 (Multicast6.Event.evSetLoop p.loop)
        (Multicast6.Event.evSend d dp m)) :=
  ⟨Multicast.send_thread_opts_precede, Multicast6.send_thread_opts_precede6⟩

/-- Claim C8, witness: the theorem applied to a concrete send-mode run
with one successful send: the TTL 64 option call precedes that send in
the trace. -/
theorem c8_options_before_send_witness :
    precedes
      (Multicast.send_thread
          { mip := 4009820417, port := 14640, sip := 0, ifip := 0,
            ssm := 0, loop := 1, bidir := 0 }
          { socketOk := true, reuseOk := true, bindOk := true, mcastIfOk := true,
            ttlOk := true, loopOk := true,
            iters := [([48, 48, 48, 48, 48, 48], true)] }).1
      (Multicast.Event.evSetTTL 64)
      (Multicast.Event.evSend 4009820417 14640
        (Multicast.message 0 [48, 48, 48, 48, 48, 48])) :=
  (c8_options_before_send.1
    { mip := 4009820417, port := 14640, sip := 0, ifip := 0,
      ssm := 0, loop := 1, bidir := 0 }
    { socketOk := true, reuseOk := true, bindOk := true, mcastIfOk := true,
      ttlOk := true, loopOk := true, iters := [([48, 48, 48, 48, 48, 48], true)] }
    4009820417 14640 (Multicast.message 0 [48, 48, 48, 48, 48, 48]) (by decide)).1

/-- Claim C4, counterexample: the claim states the send loop binds the
wildcard address unless the interface selector specifies otherwise.  At
the concrete invocation multicast6 both ff15::1 12345 ::1 the interface
selector keeps its default 0, yet the IPv6 sender binds the address 1
(that is ::1): multicast6.c line 227 uses the sip field, not the
interface selector, as the local bind address. -/
theorem c4_counterexample :
    Multicast6.main (fun _ => 0) ["multicast6", "both", "ff15::1", "12345", "::1"]
      = Outcome.startBoth
          { mip := 339062177159182778970669940794401488897, port := 14640, sip := 1,
            ifidx := 0, ifname := "default", ssm := 1, loop := 0, bidir := 1 } ∧
    (Multicast6.send_thread
        { mip := 339062177159182778970669940794401488897, port := 14640, sip := 1,
          ifidx := 0, ifname := "default", ssm := 1, loop := 0, bidir := 1 }
        { socketOk := true, reuseOk := true, bindOk := true, mcastIfOk := true,
          hopsOk := true, loopOk := true, iters := [] }).1
      = [Multicast6.Event.evSocket, Multicast6.Event.evSetReuse,
         Multicast6.Event.evBind 1 14640, Multicast6.Event.evSetHops 64,
         Multicast6.Event.evSetLoop 0] ∧
    (1 : Nat) ≠ 0 := by
  decide

/-- Claim C4, amended: the IPv4 sender binds the interface address (the
wildcard INADDR_ANY when unspecified), while the IPv6 sender binds the
configured source address (the wildcard in6addr_any when unspecified) and
its interface selector never enters the bind address; in both programs
the bound port is the fixed session port exactly when bidirectional mode
is set (0 otherwise), and in bidirectional mode the SO_REUSEADDR call
strictly precedes the bind in the trace. -/
theorem c4_send_bind_amended :
    (∀ p env a pr, Multicast.Event.evBind a pr ∈ (Multicast.send_thread p env).1 →
      a = p.ifip ∧ pr = (if p.bidir = 1 then p.port else 0)) ∧
    (∀ p env a pr, p.bidir = 1 →
      Multicast.Event.evBind a pr ∈ (Multicast.send_thread p env).1 →
      precedes (Multicast.send_thread p env).1 Multicast.Event.evSetReuse
        (Multicast.Event.evBind a pr)) ∧
    (∀ p env a pr, Multicast6.Event.evBind a pr ∈ (Multicast6.send_thread p env).1 →
      a = p.sip ∧ pr = (if p.bidir = 1 then p.port else 0)) ∧
    (∀ p env a pr, p.bidir = 1 →
      Multicast6.Event.evBind a pr ∈ (Multicast6.send_thread p env).1 →
      precedes (Multicast6.send_thread p env).1 Multicast6.Event.evSetReuse
        (Multicast6.Event.evBind a pr)) :=
  ⟨Multicast.send_thread_bind,
   fun p env a pr hbd h => Multicast.send_thread_reuse_precedes_bind p env a pr hbd h,
   Multicast6.send_thread_bind6,
   fun p env a pr hbd h => Multicast6.send_thread_reuse_precedes_bind6 p env a pr hbd h⟩

/-- Claim C4, witness: the amended theorem applied to a concrete IPv4
send-mode run, whose bind event carries the interface address 0 and the
port 0 (not bidirectional). -/
theorem c4_send_bind_amended_witness :
    (0 : Nat)
      = Multicast.Param.ifip
          { mip := 4009820417, port := 14640, sip := 0, ifip := 0,
            ssm := 0, loop := 1, bidir := 0 } ∧
    (0 : Nat)
      = (if Multicast.Param.bidir
            { mip := 4009820417, port := 14640, sip := 0, ifip := 0,
              ssm := 0, loop := 1, bidir := 0 } = 1
         then Multicast.Param.port
            { mip := 4009820417, port := 14640, sip := 0, ifip := 0,
              ssm := 0, loop := 1, bidir := 0 }
         else 0) :=
  c4_send_bind_amended.1
    { mip := 4009820417, port := 14640, sip := 0, ifip := 0,
      ssm := 0, loop := 1, bidir := 0 }
    { socketOk := true, reuseOk := true, bindOk := true, mcastIfOk := true,
      ttlOk := true, loopOk := true, iters := [] }
    0 0 (by decide)
